import Mathlib

/-!
Shallow embedding of `src/opencl/typedefs.hpp` from the vampire repository:
the templated class `vopencl::internal::Buffer3D<T>`, a device buffer whose
logical elements are 3-component vectors.

Modelling conventions:

* Device memory (`cl::Buffer`) is modelled by its contents as a `List D` of
  scalar component slots, where `D` stands for the stored device component
  type (`T` in interleaved builds, `real_t` in `USE_VECTOR_TYPE` builds).
  Component slot `j` occupies the byte range `[j*sizeofD, (j+1)*sizeofD)`.
* The compile-time configuration (`USE_VECTOR_TYPE`, `OPENCL_DP` via the
  component byte size, `CL_API_SUFFIX__VERSION_1_2`) is a `Config` value.
* Per the OpenCL specification, a 3-component vector type (`cl_float3`,
  `cl_double3`) has the size of the corresponding 4-component type:
  `sizeof(Rv) = 4 * sizeof(component)` in `USE_VECTOR_TYPE` builds, so one
  `Rv` covers 4 component slots (x, y, z, padding); in interleaved builds
  `Rv = T` covers exactly one slot.
* Host numeric types may differ in precision from the device type; the
  implicit conversions in the packing and unpacking loops are modelled by
  explicit functions `r2t : R → D` (host to device) and `t2r : D → R`.
* Fallible operations return `Option`: `none` models out-of-bounds access
  (undefined behaviour in the C++ source) or a transfer the platform rejects.
-/

namespace VOpenCL

/-- Compile-time build configuration of the translation unit:
`useVectorType` is `USE_VECTOR_TYPE`, `clApi12` is whether
`CL_API_SUFFIX__VERSION_1_2` is defined, and `sizeofD` is the byte size of
one stored scalar component (4 for `cl_float`, 8 for `cl_double`). -/
structure Config where
  useVectorType : Bool
  clApi12 : Bool
  sizeofD : Nat

/-- Field `v` of `Buffer3D`: number of `Rv` values per logical element
(1 in vector mode, 3 in interleaved mode). -/
def Config.v (cfg : Config) : Nat := if cfg.useVectorType then 1 else 3

/-- Number of scalar component slots covered by one `Rv` value: 4 in vector
mode (`cl_float3` is sized as `cl_float4`, per the OpenCL specification),
1 in interleaved mode (`Rv = T`). -/
def Config.compsPerRv (cfg : Config) : Nat := if cfg.useVectorType then 4 else 1

/-- Byte size of the `Rv` typedef: `sizeof(cl_float3) = 4*sizeof(cl_float)`
in vector mode, `sizeof(T)` in interleaved mode. -/
def Config.sizeofRv (cfg : Config) : Nat := cfg.compsPerRv * cfg.sizeofD

/-- Number of scalar component slots per logical element: 4 in vector mode
(x, y, z, padding), 3 in interleaved mode. -/
def Config.stride (cfg : Config) : Nat := cfg.v * cfg.compsPerRv

variable {D R : Type}

/-- State of a `Buffer3D<T>` instance: the `std::vector<cl::Buffer>`
holding zero or one device allocations (each modelled by its component
contents), the element count `n_elems`, and the byte count `buffer_size`. -/
structure Buffer3D (D : Type) where
  buff_container : List (List D)
  n_elems : Nat
  buffer_size : Nat
  deriving DecidableEq

/-- Default constructor `Buffer3D()`: empty container, `n_elems = 0`,
`buffer_size = 0`. -/
def Buffer3D.empty : Buffer3D D := ⟨[], 0, 0⟩

/-- Sized constructor `Buffer3D(c, fs, n)`: allocates one device buffer of
`n * v * sizeof(Rv)` bytes with unspecified contents, modelled by the
`garbage` function supplying each of the `stride * n` component slots. -/
def Buffer3D.mk_sized (cfg : Config) (n : Nat) (garbage : Nat → D) : Buffer3D D :=
  ⟨[(List.range (cfg.stride * n)).map garbage], n, n * cfg.v * cfg.sizeofRv⟩

/-- Staging contents contributed by one loop iteration of the uploading
constructor: `buff[i] = Rv{xs[i], ys[i], zs[i]}` in vector mode (the fourth
component of the aggregate is value-initialized to zero), or
`buff[3*i+0/1/2] = T(xs[i]/ys[i]/zs[i])` in interleaved mode. -/
def packElem [Zero D] (cfg : Config) (r2t : R → D) (x y z : R) : List D :=
  if cfg.useVectorType then [r2t x, r2t y, r2t z, 0] else [r2t x, r2t y, r2t z]

/-- Staging array built by the uploading constructor loop
`for i in [0, xs.size())`, reading `xs[i]`, `ys[i]`, `zs[i]`; `none` when
`ys` or `zs` is exhausted before `xs` (out-of-bounds `operator[]`). -/
def packTriples? [Zero D] (cfg : Config) (r2t : R → D) :
    List R → List R → List R → Option (List D)
  | [], _, _ => some []
  | x :: xs, y :: ys, z :: zs =>
      (packTriples? cfg r2t xs ys zs).map (fun rest => packElem cfg r2t x y z ++ rest)
  | _ :: _, [], _ => none
  | _ :: _, _ :: _, [] => none

/-- Uploading constructor `Buffer3D(c, q, fs, xs, ys, zs)`: sets
`n_elems = xs.size()`, `buffer_size = n_elems * v * sizeof(Rv)`, allocates
one device buffer and performs a blocking write of the whole staging array,
so the device contents equal the staging array. -/
def Buffer3D.mk_upload? [Zero D] (cfg : Config) (r2t : R → D)
    (xs ys zs : List R) : Option (Buffer3D D) :=
  (packTriples? cfg r2t xs ys zs).map
    (fun buff => ⟨[buff], xs.length, xs.length * cfg.v * cfg.sizeofRv⟩)

/-- Unpacking loop of `copy_to_host` for one destination sequence: writes
`dst[i] = R(staging component at stride*i + k)` for `i in [0, n)` and leaves
the remaining entries of `dst` unchanged (assumes `n ≤ dst.length`, which
`copy_to_host?` guards). Component offset `k` is 0 for x, 1 for y, 2 for z;
the same index expression covers `buff[i].s[k]` (vector mode, stride 4) and
`buff[3*i+k]` (interleaved mode, stride 3). -/
def unpack1 [Zero D] (cfg : Config) (t2r : D → R) (mem : List D) (n k : Nat)
    (dst : List R) : List R :=
  (List.range n).map (fun i => t2r (mem.getD (cfg.stride * i + k) 0)) ++ dst.drop n

/-- Method `copy_to_host(q, xs, ys, zs)`: blocking read of `buffer_size`
bytes from the device buffer into a staging array, then per-component
unpacking into the three destination sequences. Returns `none` when the
container is empty, the device buffer is shorter than the read, or a
destination is shorter than `n_elems` (out-of-bounds writes are undefined
behaviour). The method is `const`, so the returned buffer state is the
input state. -/
def Buffer3D.copy_to_host? [Zero D] (cfg : Config) (t2r : D → R)
    (st : Buffer3D D) (xs ys zs : List R) :
    Option (Buffer3D D × List R × List R × List R) := do
  let mem ← st.buff_container[0]?
  if cfg.stride * st.n_elems ≤ mem.length ∧ st.n_elems ≤ xs.length ∧
      st.n_elems ≤ ys.length ∧ st.n_elems ≤ zs.length then
    some (st, unpack1 cfg t2r mem st.n_elems 0 xs,
      unpack1 cfg t2r mem st.n_elems 1 ys,
      unpack1 cfg t2r mem st.n_elems 2 zs)
  else none

/-- Method `copy_to_dev(q, dst)`:
`enqueueCopyBuffer(src, dst, 0, 0, buffer_size)` followed by `q.finish()`.
Copies the first `buffer_size` bytes (`buffer_size / sizeofD` component
slots) of the source device buffer over the start of the destination device
buffer; `none` when either container is empty or a buffer is shorter than
the copied range (the platform rejects such a copy). -/
def Buffer3D.copy_to_dev? (cfg : Config) (src dst : Buffer3D D) :
    Option (Buffer3D D) := do
  let smem ← src.buff_container[0]?
  let dmem ← dst.buff_container[0]?
  let c := src.buffer_size / cfg.sizeofD
  if c ≤ smem.length ∧ c ≤ dmem.length then
    some { dst with buff_container := [smem.take c ++ dmem.drop c] }
  else none

/-- Effect of a byte-range fill on component-slot memory: every slot whose
byte range `[j*s, (j+1)*s)` overlaps the filled byte range
`[offset, offset + size)` takes the (unspecified) pattern-derived value
`pat`; slots disjoint from the range are unchanged. -/
def fillOverlap (s offset size : Nat) (pat : D) (mem : List D) : List D :=
  mem.mapIdx fun j a => if j * s < offset + size ∧ offset < (j + 1) * s then pat else a

/-- Method `zero_buffer()`. With `CL_API_SUFFIX__VERSION_1_2` defined the
source calls `enqueueFillBuffer(buff_container[0], &zero, sizeof(Rv),
v*n_elems)`; in the cl.hpp binding
`enqueueFillBuffer(buffer, pattern, offset, size)` this passes the pointer
`&zero` as the fill pattern, `sizeof(Rv)` as the byte offset and
`v*n_elems` as the byte size, so the byte range
`[sizeof(Rv), sizeof(Rv) + v*n_elems)` is filled with the bytes of a
pointer value, modelled by the unspecified `pat`. Without it, the source
writes `buffer_size` bytes out of a zero-filled staging array of
`3*n_elems` `Rv` values (at least `buffer_size` bytes), i.e. the first
`buffer_size / sizeofD` component slots become zero. -/
def Buffer3D.zero_buffer? [Zero D] (cfg : Config) (pat : D) (st : Buffer3D D) :
    Option (Buffer3D D) := do
  let mem ← st.buff_container[0]?
  if cfg.clApi12 then
    some { st with
      buff_container := [fillOverlap cfg.sizeofD cfg.sizeofRv (cfg.v * st.n_elems) pat mem] }
  else
    let c := st.buffer_size / cfg.sizeofD
    if c ≤ mem.length then
      some { st with buff_container := [List.replicate c (0 : D) ++ mem.drop c] }
    else none

/-- Method `buffer()`: returns `buff_container[0]`, modelled as `Option`
indexing so the out-of-bounds access on an empty container is `none`. -/
def Buffer3D.buffer (st : Buffer3D D) : Option (List D) := st.buff_container[0]?

/-- Method `free()`: swaps `buff_container` with an empty vector, releasing
the device allocation eagerly. The fields `n_elems` and `buffer_size` are
not touched by the source. -/
def Buffer3D.free (st : Buffer3D D) : Buffer3D D := { st with buff_container := [] }

/-- Occupied-state invariant: the container holds exactly one device buffer,
its component count matches the allocation, and `buffer_size` has the value
set by both sized constructors. -/
def Buffer3D.Occupied (cfg : Config) (st : Buffer3D D) : Prop :=
  ∃ mem, st.buff_container = [mem] ∧ mem.length = cfg.stride * st.n_elems ∧
    st.buffer_size = st.n_elems * cfg.v * cfg.sizeofRv

end VOpenCL

namespace VOpenCL

/-! ### Helper lemmas about the configuration and the packing loop -/

theorem stride_pos (cfg : Config) : 0 < cfg.stride := by
  cases h : cfg.useVectorType <;>
    simp [Config.stride, Config.v, Config.compsPerRv, h]

theorem v_mul_sizeofRv (cfg : Config) :
    cfg.v * cfg.sizeofRv = cfg.stride * cfg.sizeofD := by
  simp [Config.sizeofRv, Config.stride, Nat.mul_assoc]

theorem packElem_length [Zero D] (cfg : Config) (r2t : R → D) (x y z : R) :
    (packElem cfg r2t x y z).length = cfg.stride := by
  cases h : cfg.useVectorType <;>
    simp [packElem, Config.stride, Config.v, Config.compsPerRv, h]

theorem packTriples?_isSome_iff [Zero D] (cfg : Config) (r2t : R → D) :
    ∀ xs ys zs : List R,
      (packTriples? cfg r2t xs ys zs).isSome ↔
        xs.length ≤ ys.length ∧ xs.length ≤ zs.length := by
  intro xs
  induction xs with
  | nil => intro ys zs; simp [packTriples?]
  | cons x t ih =>
    intro ys zs
    cases ys with
    | nil => simp [packTriples?]
    | cons y ys =>
      cases zs with
      | nil => simp [packTriples?]
      | cons z zs => simp [packTriples?, ih, Nat.succ_le_succ_iff]

theorem packTriples?_length [Zero D] (cfg : Config) (r2t : R → D) :
    ∀ (xs ys zs : List R) (mem : List D),
      packTriples? cfg r2t xs ys zs = some mem →
        mem.length = cfg.stride * xs.length := by
  intro xs
  induction xs with
  | nil => intro ys zs mem h; simp [packTriples?] at h; simp [← h]
  | cons x t ih =>
    intro ys zs mem h
    cases ys with
    | nil => simp [packTriples?] at h
    | cons y ys =>
      cases zs with
      | nil => simp [packTriples?] at h
      | cons z zs =>
        simp [packTriples?, Option.map_eq_some'] at h
        obtain ⟨rest, hrest, hmem⟩ := h
        have hr := ih _ _ _ hrest
        subst hmem
        simp [List.length_append, packElem_length, hr, Nat.mul_succ]
        omega

theorem packTriples?_getElem? [Zero D] (cfg : Config) (r2t : R → D) :
    ∀ (xs ys zs : List R) (mem : List D),
      packTriples? cfg r2t xs ys zs = some mem →
      ∀ i, i < xs.length →
        mem[cfg.stride * i]? = xs[i]?.map r2t ∧
        mem[cfg.stride * i + 1]? = ys[i]?.map r2t ∧
        mem[cfg.stride * i + 2]? = zs[i]?.map r2t := by
  intro xs
  induction xs with
  | nil => intro ys zs mem h i hi; simp at hi
  | cons x t ih =>
    intro ys zs mem h i hi
    cases ys with
    | nil => simp [packTriples?] at h
    | cons y ys =>
      cases zs with
      | nil => simp [packTriples?] at h
      | cons z zs =>
        simp [packTriples?, Option.map_eq_some'] at h
        obtain ⟨rest, hrest, hmem⟩ := h
        subst hmem
        cases i with
        | zero =>
          refine ⟨?_, ?_, ?_⟩ <;>
            cases hb : cfg.useVectorType <;>
              simp [packElem, hb, List.cons_append]
        | succ j =>
          have hlen := packElem_length cfg r2t (D := D) x y z
          have hj : j < t.length := by simpa using hi
          have key := ih ys zs rest hrest j hj
          have hms : cfg.stride * (j + 1) = cfg.stride * j + cfg.stride :=
            Nat.mul_succ _ _
          refine ⟨?_, ?_, ?_⟩
          · rw [List.getElem?_append_right (by omega),
              show cfg.stride * (j + 1) - (packElem cfg r2t x y z (D := D)).length
                = cfg.stride * j by omega]
            simpa using key.1
          · rw [List.getElem?_append_right (by omega),
              show cfg.stride * (j + 1) + 1 - (packElem cfg r2t x y z (D := D)).length
                = cfg.stride * j + 1 by omega]
            simpa using key.2.1
          · rw [List.getElem?_append_right (by omega),
              show cfg.stride * (j + 1) + 2 - (packElem cfg r2t x y z (D := D)).length
                = cfg.stride * j + 2 by omega]
            simpa using key.2.2

theorem packTriples?_take [Zero D] (cfg : Config) (r2t : R → D) :
    ∀ xs ys zs : List R,
      packTriples? cfg r2t xs ys zs =
        packTriples? cfg r2t xs (ys.take xs.length) (zs.take xs.length) := by
  intro xs
  induction xs with
  | nil => intro ys zs; rfl
  | cons x t ih =>
    intro ys zs
    cases ys with
    | nil => rfl
    | cons y ys =>
      cases zs with
      | nil => rfl
      | cons z zs =>
        simp only [packTriples?, List.length_cons, List.take_succ_cons]
        rw [ih]

/-! ### Helper lemmas about the unpacking loop and the occupied state -/

theorem unpack1_length [Zero D] (cfg : Config) (t2r : D → R) (mem : List D)
    (n k : Nat) (dst : List R) (h : n ≤ dst.length) :
    (unpack1 cfg t2r mem n k dst).length = dst.length := by
  simp [unpack1]
  omega

theorem unpack1_getElem?_lt [Zero D] (cfg : Config) (t2r : D → R) (mem : List D)
    (n k i : Nat) (dst : List R) (h : i < n) :
    (unpack1 cfg t2r mem n k dst)[i]? =
      some (t2r (mem.getD (cfg.stride * i + k) 0)) := by
  rw [unpack1, List.getElem?_append_left (by simpa using h)]
  simp [List.getElem?_range h]

theorem unpack1_getElem?_ge [Zero D] (cfg : Config) (t2r : D → R) (mem : List D)
    (n k i : Nat) (dst : List R) (h : n ≤ i) :
    (unpack1 cfg t2r mem n k dst)[i]? = dst[i]? := by
  rw [unpack1, List.getElem?_append_right (by simpa using h), List.getElem?_drop]
  congr 1
  simp
  omega

theorem mk_sized_occupied (cfg : Config) (n : Nat) (garbage : Nat → D) :
    (Buffer3D.mk_sized cfg n garbage).Occupied cfg :=
  ⟨_, rfl, by simp [Buffer3D.mk_sized], rfl⟩

theorem mk_upload?_occupied [Zero D] (cfg : Config) (r2t : R → D)
    (xs ys zs : List R) (st : Buffer3D D)
    (h : Buffer3D.mk_upload? cfg r2t xs ys zs = some st) :
    st.Occupied cfg ∧ st.n_elems = xs.length := by
  simp [Buffer3D.mk_upload?, Option.map_eq_some'] at h
  obtain ⟨buff, hb, hst⟩ := h
  subst hst
  exact ⟨⟨buff, rfl, by simpa using packTriples?_length cfg r2t xs ys zs buff hb, rfl⟩, rfl⟩

/-! ### Claim theorems -/

/-- C7: a default-constructed buffer is empty, with `n_elems = 0`,
`buffer_size = 0` and no allocation held, and this construction is total
(no failure mode); calling `free()` on it is a no-op that leaves it
empty. -/
theorem c7_default_empty_free_noop :
    (Buffer3D.empty : Buffer3D D).n_elems = 0 ∧
    (Buffer3D.empty : Buffer3D D).buffer_size = 0 ∧
    (Buffer3D.empty : Buffer3D D).buff_container = [] ∧
    (Buffer3D.empty : Buffer3D D).free = Buffer3D.empty :=
  ⟨rfl, rfl, rfl, rfl⟩

/-- C4 counterexample: `free()` on an occupied buffer with `n_elems = 2`
(interleaved single-precision build) leaves `n_elems = 2 ≠ 0` and
`buffer_size = 24 ≠ 0`, because the source only swaps `buff_container`
with an empty vector and never touches the other two fields. -/
theorem c4_counterexample :
    (Buffer3D.free
        (Buffer3D.mk_sized (Config.mk false false 4) 2 (fun _ => (0 : Int)))).n_elems ≠ 0 ∧
    (Buffer3D.free
        (Buffer3D.mk_sized (Config.mk false false 4) 2 (fun _ => (0 : Int)))).buffer_size ≠ 0 := by
  constructor <;> decide

/-- C4 (amended): `free()` eagerly empties the resource container, so no
accelerator resource is held afterwards and a repeated `free()` (in
particular `free()` on an already-empty buffer) is a no-op; however it
leaves `n_elems` and `buffer_size` at their prior values instead of
resetting them to 0. -/
theorem c4_amended (st : Buffer3D D) :
    st.free.buff_container = [] ∧
    st.free.n_elems = st.n_elems ∧
    st.free.buffer_size = st.buffer_size ∧
    st.free.free = st.free ∧
    (Buffer3D.empty : Buffer3D D).free = Buffer3D.empty :=
  ⟨rfl, rfl, rfl, rfl, rfl⟩

/-- C3 counterexample: in the native-vector layout mode
(`USE_VECTOR_TYPE`, single precision, component size 4) a sized buffer of
one element has `buffer_size = 1 * 1 * sizeof(cl_float3) = 16`, not
`1 * 3 * 4 = 12`, because OpenCL sizes 3-component vector types as four
components. -/
theorem c3_counterexample :
    (Buffer3D.mk_sized (Config.mk true false 4) 1 (fun _ => (0 : Int))).buffer_size ≠
      1 * 3 * 4 := by
  decide

/-- C3 (amended): after every constructor (empty, sized-uninitialized and
sized-uploaded), `buffer_size = n * v * sizeof(Rv)`; in the
scalar-interleaved mode this equals `n * 3 * sizeof(component)`, while in
the native 3-wide vector mode it equals `n * 4 * sizeof(component)`
(OpenCL 3-component vectors are sized as 4 components), so the claimed
equality holds only in the interleaved mode. -/
theorem c3_amended [Zero D] (cfg : Config) (n : Nat) (garbage : Nat → D)
    (r2t : R → D) (xs ys zs : List R) (st : Buffer3D D)
    (h : Buffer3D.mk_upload? cfg r2t xs ys zs = some st) :
    (Buffer3D.empty : Buffer3D D).buffer_size = 0 * cfg.v * cfg.sizeofRv ∧
    (Buffer3D.mk_sized cfg n garbage : Buffer3D D).buffer_size = n * cfg.v * cfg.sizeofRv ∧
    st.buffer_size = st.n_elems * cfg.v * cfg.sizeofRv ∧
    (cfg.useVectorType = false →
      n * cfg.v * cfg.sizeofRv = n * 3 * cfg.sizeofD) ∧
    (cfg.useVectorType = true →
      n * cfg.v * cfg.sizeofRv = n * 4 * cfg.sizeofD) := by
  obtain ⟨⟨mem, -, -, hbs⟩, -⟩ := mk_upload?_occupied cfg r2t xs ys zs st h
  refine ⟨by simp [Buffer3D.empty], rfl, hbs, fun hm => ?_, fun hm => ?_⟩ <;>
    simp [Config.v, Config.sizeofRv, Config.compsPerRv, hm, Nat.mul_assoc]

/-- Witness for the amended C3 at a concrete input: an interleaved
single-precision sized buffer of one element has
`buffer_size = 1 * 3 * 4`. -/
theorem c3_amended_witness :
    (Buffer3D.mk_sized (Config.mk false false 4) 1 (fun _ => (0 : Int))).buffer_size =
      1 * (Config.mk false false 4).v * (Config.mk false false 4).sizeofRv ∧
    1 * (Config.mk false false 4).v * (Config.mk false false 4).sizeofRv =
      1 * 3 * (Config.mk false false 4).sizeofD :=
  ⟨(c3_amended (Config.mk false false 4) 1 (fun _ => (0 : Int)) (id : Int → Int)
      [1] [1] [1] ⟨[[1, 1, 1]], 1, 12⟩ rfl).2.1,
   (c3_amended (Config.mk false false 4) 1 (fun _ => (0 : Int)) (id : Int → Int)
      [1] [1] [1] ⟨[[1, 1, 1]], 1, 12⟩ rfl).2.2.2.1 rfl⟩

/-- C9: every buffer in the occupied state has a resource container holding
exactly one element: both sized constructors produce a one-element
`buff_container`, and under the occupied invariant the Option-returning
embedding of `buffer()` (the index-0 access also performed by
`copy_to_host`, `copy_to_dev` and `zero_buffer`) never takes the
out-of-bounds branch. -/
theorem c9_container_one_element [Zero D] (cfg : Config) (n : Nat)
    (garbage : Nat → D) (r2t : R → D) (xs ys zs : List R)
    (st0 st : Buffer3D D)
    (hup : Buffer3D.mk_upload? cfg r2t xs ys zs = some st0)
    (hocc : st.Occupied cfg) :
    (Buffer3D.mk_sized cfg n garbage : Buffer3D D).buff_container.length = 1 ∧
    st0.buff_container.length = 1 ∧
    st.buff_container.length = 1 ∧ st.buffer.isSome = true := by
  obtain ⟨mem, hc, -, -⟩ := hocc
  obtain ⟨⟨mem0, hc0, -, -⟩, -⟩ := mk_upload?_occupied cfg r2t xs ys zs st0 hup
  exact ⟨rfl, by simp [hc0], by simp [hc], by simp [Buffer3D.buffer, hc]⟩

/-- Witness for C9 at a concrete input: an occupied interleaved
single-precision buffer with one element. -/
theorem c9_container_one_element_witness :
    (Buffer3D.mk_sized (Config.mk false false 4) 1
        (fun _ => (0 : Int)) : Buffer3D Int).buff_container.length = 1 ∧
    (⟨[[1, 1, 1]], 1, 12⟩ : Buffer3D Int).buff_container.length = 1 ∧
    (⟨[[1, 2, 3]], 1, 12⟩ : Buffer3D Int).buff_container.length = 1 ∧
    (⟨[[1, 2, 3]], 1, 12⟩ : Buffer3D Int).buffer.isSome = true :=
  c9_container_one_element (Config.mk false false 4) 1 (fun _ => (0 : Int))
    (id : Int → Int) [1] [1] [1] ⟨[[1, 1, 1]], 1, 12⟩ ⟨[[1, 2, 3]], 1, 12⟩
    rfl ⟨[1, 2, 3], rfl, by decide, by decide⟩

/-- C10: the uploading constructor takes the element count solely from
`xs.size()` and reads only indices below `xs.size()` of `ys` and `zs`: it
is fully defined (returns `some`) whenever `ys` and `zs` are at least as
long as `xs`, and its result only depends on the first `xs.size()`
entries of `ys` and `zs`. -/
theorem c10_upload_defined_when_longer [Zero D] (cfg : Config) (r2t : R → D)
    (xs ys zs : List R) (hy : xs.length ≤ ys.length) (hz : xs.length ≤ zs.length) :
    ∃ st : Buffer3D D, Buffer3D.mk_upload? cfg r2t xs ys zs = some st ∧
      st.n_elems = xs.length ∧
      Buffer3D.mk_upload? cfg r2t xs ys zs =
        Buffer3D.mk_upload? cfg r2t xs (ys.take xs.length) (zs.take xs.length) := by
  have hs : (packTriples? cfg r2t xs ys zs (D := D)).isSome =true :=
    (packTriples?_isSome_iff cfg r2t xs ys zs).2 ⟨hy, hz⟩
  obtain ⟨buff, hb⟩ := Option.isSome_iff_exists.1 hs
  refine ⟨⟨[buff], xs.length, xs.length * cfg.v * cfg.sizeofRv⟩,
    by simp [Buffer3D.mk_upload?, hb], rfl, ?_⟩
  unfold Buffer3D.mk_upload?
  rw [packTriples?_take cfg r2t xs ys zs]

/-- Witness for C10 at a concrete input with `ys` and `zs` strictly longer
than `xs`. -/
theorem c10_upload_defined_when_longer_witness :
    ∃ st : Buffer3D Int,
      Buffer3D.mk_upload? (Config.mk false false 4) (id : Int → Int)
          [1, 2] [3, 4, 9] [5, 6, 9, 9] = some st ∧
      st.n_elems = ([1, 2] : List Int).length ∧
      Buffer3D.mk_upload? (Config.mk false false 4) (id : Int → Int)
          [1, 2] [3, 4, 9] [5, 6, 9, 9] =
        Buffer3D.mk_upload? (Config.mk false false 4) (id : Int → Int)
          [1, 2] (([3, 4, 9] : List Int).take ([1, 2] : List Int).length)
          (([5, 6, 9, 9] : List Int).take ([1, 2] : List Int).length) :=
  c10_upload_defined_when_longer (Config.mk false false 4) (id : Int → Int)
    [1, 2] [3, 4, 9] [5, 6, 9, 9] (by decide) (by decide)

/-- C6: for host inputs of equal (or sufficient) length, the uploading
constructor sets `n_elems = xs.size()` and lays the staging array out by
layout mode: interleaved mode puts `T(xs[i])`, `T(ys[i])`, `T(zs[i])` at
positions `3*i+0`, `3*i+1`, `3*i+2`; native-vector mode puts the converted
`xs[i]`, `ys[i]`, `zs[i]` in the first three component slots of vector
element `i` (positions `4*i+0..2` of the 4-slot-per-vector layout). The
blocking write makes that staging array the device contents. -/
theorem c6_upload_packing [Zero D] (cfg : Config) (r2t : R → D)
    (xs ys zs : List R) (st : Buffer3D D)
    (h : Buffer3D.mk_upload? cfg r2t xs ys zs = some st) :
    st.n_elems = xs.length ∧
    ∃ mem, st.buff_container = [mem] ∧
      ∀ i, i < xs.length →
        (cfg.useVectorType = false →
          mem[3 * i]? = xs[i]?.map r2t ∧ mem[3 * i + 1]? = ys[i]?.map r2t ∧
            mem[3 * i + 2]? = zs[i]?.map r2t) ∧
        (cfg.useVectorType = true →
          mem[4 * i]? = xs[i]?.map r2t ∧ mem[4 * i + 1]? = ys[i]?.map r2t ∧
            mem[4 * i + 2]? = zs[i]?.map r2t) := by
  simp only [Buffer3D.mk_upload?, Option.map_eq_some'] at h
  obtain ⟨buff, hb, hst⟩ := h
  subst hst
  refine ⟨rfl, buff, rfl, fun i hi => ⟨fun hm => ?_, fun hm => ?_⟩⟩
  · have hstride : cfg.stride = 3 := by
      simp [Config.stride, Config.v, Config.compsPerRv, hm]
    simpa [hstride] using packTriples?_getElem? cfg r2t xs ys zs buff hb i hi
  · have hstride : cfg.stride = 4 := by
      simp [Config.stride, Config.v, Config.compsPerRv, hm]
    simpa [hstride] using packTriples?_getElem? cfg r2t xs ys zs buff hb i hi

/-- Witness for C6 at a concrete input: uploading xs=[1,2], ys=[3,4],
zs=[5,6] in the interleaved single-precision build and inspecting staging
position `3*1+1`. -/
theorem c6_upload_packing_witness :
    ∃ mem : List Int,
      (⟨[[1, 3, 5, 2, 4, 6]], 2, 24⟩ : Buffer3D Int).buff_container = [mem] ∧
      mem[3 * 1 + 1]? = ([3, 4] : List Int)[1]?.map id := by
  obtain ⟨-, mem, hc, hall⟩ := c6_upload_packing (Config.mk false false 4)
    (id : Int → Int) [1, 2] [3, 4] [5, 6] ⟨[[1, 3, 5, 2, 4, 6]], 2, 24⟩ rfl
  exact ⟨mem, hc, ((hall 1 (by decide)).1 rfl).2.1⟩

/-- C8: on an occupied buffer with destinations each at least `n_elems`
long, `copy_to_host` succeeds, leaves the buffer state (container,
`n_elems`, `buffer_size`, device contents) unchanged, never changes the
destination lengths, and writes only destination indices below `n_elems`
(every index at or above `n_elems` keeps its old value). -/
theorem c8_copy_to_host_frame [Zero D] (cfg : Config) (t2r : D → R)
    (st : Buffer3D D) (xs ys zs : List R) (hocc : st.Occupied cfg)
    (hx : st.n_elems ≤ xs.length) (hy : st.n_elems ≤ ys.length)
    (hz : st.n_elems ≤ zs.length) :
    ∃ xs2 ys2 zs2,
      st.copy_to_host? cfg t2r xs ys zs = some (st, xs2, ys2, zs2) ∧
      xs2.length = xs.length ∧ ys2.length = ys.length ∧ zs2.length = zs.length ∧
      ∀ i, st.n_elems ≤ i →
        xs2[i]? = xs[i]? ∧ ys2[i]? = ys[i]? ∧ zs2[i]? = zs[i]? := by
  obtain ⟨mem, hc, hlen, -⟩ := hocc
  refine ⟨unpack1 cfg t2r mem st.n_elems 0 xs, unpack1 cfg t2r mem st.n_elems 1 ys,
    unpack1 cfg t2r mem st.n_elems 2 zs, ?_,
    unpack1_length cfg t2r mem st.n_elems 0 xs hx,
    unpack1_length cfg t2r mem st.n_elems 1 ys hy,
    unpack1_length cfg t2r mem st.n_elems 2 zs hz,
    fun i hi => ⟨unpack1_getElem?_ge cfg t2r mem st.n_elems 0 i xs hi,
      unpack1_getElem?_ge cfg t2r mem st.n_elems 1 i ys hi,
      unpack1_getElem?_ge cfg t2r mem st.n_elems 2 i zs hi⟩⟩
  have hcond : cfg.stride * st.n_elems ≤ mem.length ∧ st.n_elems ≤ xs.length ∧
      st.n_elems ≤ ys.length ∧ st.n_elems ≤ zs.length := ⟨hlen.ge, hx, hy, hz⟩
  simp [Buffer3D.copy_to_host?, hc, hcond]

/-- Witness for C8 at a concrete input: a 1-element occupied buffer read
into 2-long destinations; index 1 keeps its old value. -/
theorem c8_copy_to_host_frame_witness :
    ∃ xs2 ys2 zs2 : List Int,
      (⟨[[1, 2, 3]], 1, 12⟩ : Buffer3D Int).copy_to_host? (Config.mk false false 4)
          (id : Int → Int) [7, 8] [7, 8] [7, 8] =
        some (⟨[[1, 2, 3]], 1, 12⟩, xs2, ys2, zs2) ∧
      xs2.length = 2 ∧ ys2.length = 2 ∧ zs2.length = 2 ∧
      xs2[1]? = some 8 := by
  obtain ⟨xs2, ys2, zs2, hrun, hl1, hl2, hl3, hfr⟩ :=
    c8_copy_to_host_frame (Config.mk false false 4) (id : Int → Int)
      ⟨[[1, 2, 3]], 1, 12⟩ [7, 8] [7, 8] [7, 8]
      ⟨[1, 2, 3], rfl, by decide, by decide⟩ (by decide) (by decide) (by decide)
  exact ⟨xs2, ys2, zs2, hrun, hl1, hl2, hl3, by simpa using (hfr 1 (by decide)).1⟩

theorem unpack1_eq_map [Zero D] (cfg : Config) (r2t : R → D) (t2r : D → R)
    (buff : List D) (sel dst : List R) (n k : Nat)
    (hsel : sel.length = n) (hdst : dst.length = n)
    (hkey : ∀ i, i < n → buff[cfg.stride * i + k]? = sel[i]?.map r2t) :
    unpack1 cfg t2r buff n k dst = sel.map (fun a => t2r (r2t a)) := by
  apply List.ext_getElem?
  intro i
  by_cases hi : i < n
  · have h2 : i < sel.length := by omega
    rw [unpack1_getElem?_lt cfg t2r buff n k i dst hi, List.getElem?_map]
    have h1 := hkey i hi
    rw [List.getElem?_eq_getElem h2] at h1
    rw [List.getElem?_eq_getElem h2, List.getD_eq_getElem?_getD, h1]
    rfl
  · rw [unpack1_getElem?_ge cfg t2r buff n k i dst (by omega)]
    rw [List.getElem?_eq_none (by omega), List.getElem?_eq_none (by simp; omega)]

/-- C1: uploading equal-length host triples and reading them back into
destinations sized to the same length returns, for every index, the
original value sent through the host-to-device and device-to-host
conversions (the rounding induced by a precision mismatch); when those
conversions compose to the identity (matching host and device precision)
the read-back equals the originals exactly. -/
theorem c1_round_trip [Zero D] (cfg : Config) (r2t : R → D) (t2r : D → R)
    (xs ys zs ax ay az : List R)
    (hy : ys.length = xs.length) (hz : zs.length = xs.length)
    (hax : ax.length = xs.length) (hay : ay.length = xs.length)
    (haz : az.length = xs.length) :
    ∃ st : Buffer3D D, Buffer3D.mk_upload? cfg r2t xs ys zs = some st ∧
      st.copy_to_host? cfg t2r ax ay az =
        some (st, xs.map (fun a => t2r (r2t a)), ys.map (fun a => t2r (r2t a)),
          zs.map (fun a => t2r (r2t a))) := by
  have hps : (packTriples? cfg r2t xs ys zs (D := D)).isSome = true :=
    (packTriples?_isSome_iff cfg r2t xs ys zs).2 ⟨hy.ge, hz.ge⟩
  obtain ⟨buff, hb⟩ := Option.isSome_iff_exists.1 hps
  have hblen := packTriples?_length cfg r2t xs ys zs buff hb
  have hkey := packTriples?_getElem? cfg r2t xs ys zs buff hb
  refine ⟨⟨[buff], xs.length, xs.length * cfg.v * cfg.sizeofRv⟩,
    by simp [Buffer3D.mk_upload?, hb], ?_⟩
  have hx1 : unpack1 cfg t2r buff xs.length 0 ax = xs.map (fun a => t2r (r2t a)) :=
    unpack1_eq_map cfg r2t t2r buff xs ax xs.length 0 rfl hax
      (fun i hi => by simpa using (hkey i hi).1)
  have hy1 : unpack1 cfg t2r buff xs.length 1 ay = ys.map (fun a => t2r (r2t a)) :=
    unpack1_eq_map cfg r2t t2r buff ys ay xs.length 1 hy hay
      (fun i hi => (hkey i hi).2.1)
  have hz1 : unpack1 cfg t2r buff xs.length 2 az = zs.map (fun a => t2r (r2t a)) :=
    unpack1_eq_map cfg r2t t2r buff zs az xs.length 2 hz haz
      (fun i hi => (hkey i hi).2.2)
  have hcond : cfg.stride * xs.length ≤ buff.length ∧ xs.length ≤ ax.length ∧
      xs.length ≤ ay.length ∧ xs.length ≤ az.length :=
    ⟨hblen.ge, hax.ge, hay.ge, haz.ge⟩
  simp [Buffer3D.copy_to_host?, hcond, hx1, hy1, hz1]

/-- Witness for C1: the spec's concrete scenario with matching host and
device precision (identity conversions over the rationals): xs=[1,2],
ys=[3,4], zs=[5,6], n=2, read back into 2-long destinations, with the
read-back exactly equal to the originals. -/
theorem c1_round_trip_witness :
    ∃ st : Buffer3D ℚ,
      Buffer3D.mk_upload? (Config.mk false false 8) (id : ℚ → ℚ)
          [1, 2] [3, 4] [5, 6] = some st ∧
      st.copy_to_host? (Config.mk false false 8) (id : ℚ → ℚ)
          [0, 0] [0, 0] [0, 0] = some (st, [1, 2], [3, 4], [5, 6]) := by
  have h := c1_round_trip (Config.mk false false 8) (id : ℚ → ℚ) (id : ℚ → ℚ)
    [1, 2] [3, 4] [5, 6] [0, 0] [0, 0] [0, 0] rfl rfl rfl rfl rfl
  simpa using h

/-- C5: for occupied buffers A and B with identical `buffer_size` (B with
any prior content), `copy_to_dev` from A to B succeeds, and afterwards a
`copy_to_host` read of B returns exactly the triple that a `copy_to_host`
read of A returns, for any destinations long enough for the read. -/
theorem c5_copy_to_dev_equiv [Zero D] (cfg : Config) (t2r : D → R)
    (A B : Buffer3D D) (xs ys zs : List R)
    (hA : A.Occupied cfg) (hB : B.Occupied cfg)
    (hsize : A.buffer_size = B.buffer_size) (hs : 0 < cfg.sizeofD)
    (hx : A.n_elems ≤ xs.length) (hy : A.n_elems ≤ ys.length)
    (hz : A.n_elems ≤ zs.length) :
    ∃ (B2 : Buffer3D D) (t : List R × List R × List R),
      Buffer3D.copy_to_dev? cfg A B = some B2 ∧
      A.copy_to_host? cfg t2r xs ys zs = some (A, t) ∧
      B2.copy_to_host? cfg t2r xs ys zs = some (B2, t) := by
  obtain ⟨amem, hca, hla, hba⟩ := hA
  obtain ⟨bmem, hcb, hlb, hbb⟩ := hB
  have hstp : 0 < cfg.stride := stride_pos cfg
  have hba2 : A.buffer_size = A.n_elems * cfg.stride * cfg.sizeofD := by
    rw [hba, Nat.mul_assoc, v_mul_sizeofRv, ← Nat.mul_assoc]
  have hbb2 : B.buffer_size = B.n_elems * cfg.stride * cfg.sizeofD := by
    rw [hbb, Nat.mul_assoc, v_mul_sizeofRv, ← Nat.mul_assoc]
  have hn : B.n_elems = A.n_elems := by
    have h1 : A.n_elems * cfg.stride * cfg.sizeofD
        = B.n_elems * cfg.stride * cfg.sizeofD := by rw [← hba2, ← hbb2, hsize]
    have h2 : A.n_elems * cfg.stride = B.n_elems * cfg.stride :=
      Nat.eq_of_mul_eq_mul_right hs h1
    exact (Nat.eq_of_mul_eq_mul_right hstp h2).symm
  have hcdiv : A.buffer_size / cfg.sizeofD = A.n_elems * cfg.stride := by
    rw [hba2, Nat.mul_div_cancel _ hs]
  have hceq : A.buffer_size / cfg.sizeofD = amem.length := by
    rw [hcdiv, hla, Nat.mul_comm]
  have hceqb : A.buffer_size / cfg.sizeofD = bmem.length := by
    rw [hcdiv, hlb, hn, Nat.mul_comm]
  have hab : amem.length = bmem.length := hceq.symm.trans hceqb
  have hnewmem : amem.take (A.buffer_size / cfg.sizeofD) ++
      bmem.drop (A.buffer_size / cfg.sizeofD) = amem := by
    rw [hceq, List.take_length, hab, List.drop_length, List.append_nil]
  have hrun : Buffer3D.copy_to_dev? cfg A B =
      some { B with buff_container := [amem] } := by
    simp only [Buffer3D.copy_to_dev?, hca, hcb, List.getElem?_cons_zero,
      Option.bind_eq_bind, Option.some_bind]
    rw [if_pos ⟨hceq.le, hceqb.le⟩, hnewmem]
  have hcondA : cfg.stride * A.n_elems ≤ amem.length ∧ A.n_elems ≤ xs.length ∧
      A.n_elems ≤ ys.length ∧ A.n_elems ≤ zs.length := ⟨hla.ge, hx, hy, hz⟩
  refine ⟨{ B with buff_container := [amem] },
    (unpack1 cfg t2r amem A.n_elems 0 xs, unpack1 cfg t2r amem A.n_elems 1 ys,
      unpack1 cfg t2r amem A.n_elems 2 zs), hrun, ?_, ?_⟩
  · simp [Buffer3D.copy_to_host?, hca, hcondA]
  · simp [Buffer3D.copy_to_host?, hn, hcondA]

/-- Witness for C5 at a concrete input: A holds (1,3,5),(2,4,6), B holds
junk of the same size (interleaved single-precision build, n = 2). -/
theorem c5_copy_to_dev_equiv_witness :
    ∃ (B2 : Buffer3D Int) (t : List Int × List Int × List Int),
      Buffer3D.copy_to_dev? (Config.mk false false 4)
          (⟨[[1, 3, 5, 2, 4, 6]], 2, 24⟩ : Buffer3D Int)
          ⟨[[9, 9, 9, 9, 9, 9]], 2, 24⟩ = some B2 ∧
      (⟨[[1, 3, 5, 2, 4, 6]], 2, 24⟩ : Buffer3D Int).copy_to_host?
          (Config.mk false false 4) (id : Int → Int) [0, 0] [0, 0] [0, 0] =
        some (⟨[[1, 3, 5, 2, 4, 6]], 2, 24⟩, t) ∧
      B2.copy_to_host? (Config.mk false false 4) (id : Int → Int)
          [0, 0] [0, 0] [0, 0] = some (B2, t) :=
  c5_copy_to_dev_equiv (Config.mk false false 4) (id : Int → Int)
    ⟨[[1, 3, 5, 2, 4, 6]], 2, 24⟩ ⟨[[9, 9, 9, 9, 9, 9]], 2, 24⟩
    [0, 0] [0, 0] [0, 0]
    ⟨[1, 3, 5, 2, 4, 6], rfl, by decide, by decide⟩
    ⟨[9, 9, 9, 9, 9, 9], rfl, by decide, by decide⟩
    rfl (by decide) (by decide) (by decide) (by decide)

/-- Staging-array fallback path of `zero_buffer()` (no
`CL_API_SUFFIX__VERSION_1_2`): on an occupied buffer it writes
`buffer_size` bytes out of the zero-filled staging array, leaving every
component slot zero. -/
theorem zero_buffer_fallback_zeroes [Zero D] (cfg : Config) (pat : D)
    (st : Buffer3D D) (hocc : st.Occupied cfg) (hcl : cfg.clApi12 = false)
    (hs : 0 < cfg.sizeofD) :
    ∃ st2, st.zero_buffer? cfg pat = some st2 ∧
      st2.buff_container = [List.replicate (cfg.stride * st.n_elems) 0] := by
  obtain ⟨mem, hc, hlen, hbs⟩ := hocc
  have hdiv : st.buffer_size / cfg.sizeofD = cfg.stride * st.n_elems := by
    rw [hbs, Nat.mul_assoc, v_mul_sizeofRv, ← Nat.mul_assoc,
      Nat.mul_div_cancel _ hs, Nat.mul_comm]
  refine ⟨{ st with buff_container := [List.replicate (cfg.stride * st.n_elems) 0] },
    ?_, rfl⟩
  simp only [Buffer3D.zero_buffer?, hc, List.getElem?_cons_zero,
    Option.bind_eq_bind, Option.some_bind, hcl, Bool.false_eq_true, if_false]
  rw [if_pos (by rw [hdiv, ← hlen])]
  rw [hdiv, ← hlen, List.drop_length, List.append_nil, hlen]

/-- Witness for the fallback-path lemma on a concrete occupied buffer. -/
theorem zero_buffer_fallback_zeroes_witness :
    ∃ st2 : Buffer3D Int,
      Buffer3D.zero_buffer? (Config.mk false false 4) 999
          (⟨[[1, 2, 3]], 1, 12⟩ : Buffer3D Int) = some st2 ∧
      st2.buff_container =
        [List.replicate ((Config.mk false false 4).stride * 1) (0 : Int)] :=
  zero_buffer_fallback_zeroes (Config.mk false false 4) 999 ⟨[[1, 2, 3]], 1, 12⟩
    ⟨[1, 2, 3], rfl, by decide, by decide⟩ rfl (by decide)

/-- C2 (code bug, device-side fill path): with
`CL_API_SUFFIX__VERSION_1_2` defined, `zero_buffer()` calls the cl.hpp
binding `enqueueFillBuffer(buffer, pattern, offset, size)` as
`enqueueFillBuffer(buff_container[0], &zero, sizeof(Rv), v*n_elems)`,
i.e. with the pointer `&zero` as the fill pattern, byte offset
`sizeof(Rv)` and byte size `v*n_elems`. The byte range `[0, sizeof(Rv))`
is therefore never written: on an interleaved single-precision buffer
with `n_elems = 1` holding components (1, 2, 3), whatever component value
`pat` the pointer-pattern bytes produce, the subsequent `copy_to_host`
returns x = 1, not 0 — contradicting the claim (and the source's own
comment) that `zero_buffer()` writes zeros over the data. -/
theorem c2_fill_path_not_zeroed :
    ∀ pat : Int,
      ∃ st2 : Buffer3D Int,
        Buffer3D.zero_buffer? (Config.mk false true 4) pat
          ⟨[[1, 2, 3]], 1, 12⟩ = some st2 ∧
        ∃ r, st2.copy_to_host? (Config.mk false true 4) (id : Int → Int)
            [7] [7] [7] = some r ∧
          r.2.1 = [1] ∧ ([1] : List Int) ≠ [0] := by
  intro pat
  exact ⟨_, rfl, _, rfl, rfl, by decide⟩
